import Mathlib

/-!
Verification development for the yolo-detection traffic monitoring system.

The definitions below are a shallow embedding of the core mutable-state
operations of `app.py` (network simulator, signal controller, manual
override endpoint, lane classification) and of the anti-bounce lane
update of `intersection_final.py`.  Python dictionaries keyed by strings
are modelled as association lists or as total functions read through a
domain check mirroring `dict.get(key, default)`.  Python integers are
`Int`; wall-clock timestamps are `Rat`.  The handoff ratio 0.5 applied by
`int(count * SIM_HANDOFF_RATIO)` is embedded as integer halving, which
agrees with the float computation for every count below 2 to the 53rd.
-/

/-! ### Configuration constants (app.py lines 37-72) -/

def GREEN_TIME : ℚ := 5

def YELLOW_TIME : ℚ := 2

def COUNT_SWITCH_DELTA : Int := 2

def SIM_TICK_SECONDS : ℚ := 1

def SIM_MIN_HANDOFF : Int := 1

def SIM_MIRROR_INTERSECTION : String := "intersection_1"

/-- Static opposing-lane pairing table, app.py lines 65-72. -/
def PAIRED_LANES : List (String × String) :=
  [("lane_1", "lane_2"), ("lane_2", "lane_1"),
   ("lane_3", "lane_4"), ("lane_4", "lane_3"),
   ("lane_6", "lane_7"), ("lane_7", "lane_6")]

/-! ### Handoff policy (app.py `_handoff_amount`, lines 204-210) -/

/-- Embedding of `_handoff_amount`: zero for a non-positive count, otherwise
half the count (the `int(count * 0.5)` step), raised to `SIM_MIN_HANDOFF`
when below it, and finally capped at the source count. -/
def _handoff_amount (count : Int) : Int :=
  if count ≤ 0 then 0
  else
    let transfer := count / 2
    let transfer2 := if transfer < SIM_MIN_HANDOFF then SIM_MIN_HANDOFF else transfer
    min transfer2 count

/-! ### Target parsing (app.py `_parse_target_lane`, lines 195-201) -/

/-- Split a character list at the first dot, mirroring Python
`target.split(".", 1)` preceded by the `"." in target` check: `none` when
no dot occurs (which also covers the empty string). -/
def splitFirstDot : List Char → Option (List Char × List Char)
  | [] => none
  | c :: rest =>
    if c = '.' then some ([], rest)
    else
      match splitFirstDot rest with
      | some (a, b) => some (c :: a, b)
      | none => none

/-- Embedding of `_parse_target_lane`: a missing target, an empty target, or
a target without a dot yields `(none, none)`; otherwise the target is split
at the first dot. -/
def _parse_target_lane (target : Option String) : Option String × Option String :=
  match target with
  | none => (none, none)
  | some t =>
    match splitFirstDot t.toList with
    | none => (none, none)
    | some (a, b) => (some (String.mk a), some (String.mk b))

/-- Python truthiness of an optional string: `None` and `""` are falsy. -/
def optTruthy : Option String → Bool
  | none => false
  | some s => !s.isEmpty

/-! ### Network configuration and simulated counts -/

/-- One entry of the `intersections.json` configuration: an intersection id,
its lane ids, and its outgoing routing map (lane id to an optional target
string of the form `"intersectionId.laneId"`). -/
structure InterCfg where
  id : String
  lanes : List String
  outgoing : List (String × Option String)
deriving DecidableEq

/-- Simulated counts, the embedding of the `simulation_counts` nested dict:
a total function on (intersection id, lane id) pairs.  Reads in the source
funnel through `dict.get` with default `0`; the corresponding read here is
`getCount`, which consults the configured domain. -/
abbrev SimCounts := String × String → Int

/-- Lane ids of an intersection, i.e. the keys of
`simulation_counts[iid]`; empty for an unknown intersection id. -/
def interLanes (cfg : List InterCfg) (iid : String) : List String :=
  match cfg.find? (fun ic => ic.id == iid) with
  | some ic => ic.lanes
  | none => []

/-- Membership test `iid in simulation_counts`. -/
def hasInter (cfg : List InterCfg) (iid : String) : Bool :=
  (cfg.find? (fun ic => ic.id == iid)).isSome

/-- Embedding of `simulation_counts.get(iid, {}).get(lid, 0)`. -/
def getCount (cfg : List InterCfg) (s : SimCounts) (iid lid : String) : Int :=
  if lid ∈ interLanes cfg iid then s (iid, lid) else 0

/-! ### Simulation tick (app.py `tick_simulation`, lines 259-310) -/

/-- Step 1 of a firing tick (lines 269-272): the mirror intersection lanes
that also exist in the live lane table are overwritten with the live
counts.  Live counts are vehicle tallies, hence `Nat`. -/
def mirrorStep (cfg : List InterCfg) (liveLanes : List String) (live : String → Nat)
    (s : SimCounts) : SimCounts :=
  fun p =>
    if p.1 = SIM_MIRROR_INTERSECTION ∧ p.2 ∈ interLanes cfg SIM_MIRROR_INTERSECTION ∧
       p.2 ∈ liveLanes
    then (live p.2 : Int) else s p

/-- Step 2 of a firing tick (lines 274-278): every configured lane of every
non-mirror intersection is reset to zero. -/
def resetStep (cfg : List InterCfg) (s : SimCounts) : SimCounts :=
  fun p =>
    if p.1 ≠ SIM_MIRROR_INTERSECTION ∧ p.2 ∈ interLanes cfg p.1 then 0 else s p

/-- The simulated counts after steps 1 and 2 of a firing tick. -/
def postReset (cfg : List InterCfg) (liveLanes : List String) (live : String → Nat)
    (s : SimCounts) : SimCounts :=
  resetStep cfg (mirrorStep cfg liveLanes live s)

/-- One entry of the `transfers` batch built in lines 280-298. -/
structure Transfer where
  srcI : String
  srcL : String
  dstI : String
  dstL : String
  amount : Int
deriving DecidableEq

/-- Transfers contributed by a single intersection entry (the inner loop of
lines 281-298), reading source counts through `read`. -/
def genFromInter (read : String → String → Int) (ic : InterCfg) : List Transfer :=
  ic.outgoing.filterMap (fun entry =>
    let pr := _parse_target_lane entry.2
    if optTruthy pr.1 ∧ optTruthy pr.2 then
      let srcCount := read ic.id entry.1
      let transfer := _handoff_amount srcCount
      if transfer ≤ 0 then none
      else some ⟨ic.id, entry.1, pr.1.getD "", pr.2.getD "", transfer⟩
    else none)

/-- The full transfer batch of a firing tick, computed before any transfer
is applied (lines 280-298). -/
def genTransfers (read : String → String → Int) (cfg : List InterCfg) : List Transfer :=
  cfg.flatMap (genFromInter read)

/-- Application of a single transfer (lines 300-310): if any of the four
membership checks fails the transfer is skipped whole, otherwise the amount
moves from the source lane to the destination lane. -/
def applyTransfer (cfg : List InterCfg) (s : SimCounts) (t : Transfer) : SimCounts :=
  if hasInter cfg t.srcI ∧ hasInter cfg t.dstI ∧
     t.srcL ∈ interLanes cfg t.srcI ∧ t.dstL ∈ interLanes cfg t.dstI then
    fun p =>
      s p - (if p = (t.srcI, t.srcL) then t.amount else 0)
          + (if p = (t.dstI, t.dstL) then t.amount else 0)
  else s

/-- Application of the whole batch, in order. -/
def applyTransfers (cfg : List InterCfg) (s : SimCounts) (ts : List Transfer) : SimCounts :=
  ts.foldl (applyTransfer cfg) s

/-- The counts produced by a firing tick: mirror overwrite, reset, then
snapshot-then-apply transfer batch. -/
def tickFire (cfg : List InterCfg) (liveLanes : List String) (live : String → Nat)
    (s : SimCounts) : SimCounts :=
  let s2 := postReset cfg liveLanes live s
  applyTransfers cfg s2 (genTransfers (getCount cfg s2) cfg)

/-- Simulator state: the counts plus `last_simulation_tick`. -/
structure SimState where
  counts : SimCounts
  lastTick : ℚ

/-- Embedding of `tick_simulation` (lines 259-310): a no-op when no
intersections are configured or when less than `SIM_TICK_SECONDS` elapsed
since the last firing tick; otherwise the tick fires. -/
def tick_simulation (cfg : List InterCfg) (liveLanes : List String) (live : String → Nat)
    (s : SimState) (now : ℚ) : SimState :=
  if cfg = [] then s
  else if now - s.lastTick < SIM_TICK_SECONDS then s
  else { counts := tickFire cfg liveLanes live s.counts, lastTick := now }

/-- All configured (intersection id, lane id) pairs. -/
def domPairs (cfg : List InterCfg) : List (String × String) :=
  cfg.flatMap (fun ic => ic.lanes.map (fun l => (ic.id, l)))

/-- Grand total of the simulated counts over all configured pairs. -/
def totalCount (cfg : List InterCfg) (s : SimCounts) : Int :=
  ∑ p ∈ (domPairs cfg).toFinset, s p

/-! ### Signal controller (app.py `update_traffic_lights`, lines 313-344) -/

/-- The two values the `light_state` global ever holds. -/
inductive Phase
  | GREEN
  | YELLOW
deriving DecidableEq

/-- Per-lane signal colors. -/
inductive Signal
  | GREEN
  | YELLOW
  | RED
deriving DecidableEq

def Phase.toSignal : Phase → Signal
  | .GREEN => .GREEN
  | .YELLOW => .YELLOW

/-- Controller state: phase, active lane index, pending lane index and the
timestamp of the last phase change. -/
structure CtrlState where
  light : Phase
  currentLaneIndex : Nat
  pendingLaneIndex : Option Nat
  lastSwitchTime : ℚ
deriving DecidableEq

/-- Scan step of Python `max(lane_counts, key=lane_counts.get)`: the running
best is replaced only on a strictly greater count, so the first maximal
element of the iteration order wins. -/
def argmaxFrom (counts : String → Int) (best : String) : List String → String
  | [] => best
  | x :: xs => argmaxFrom counts (if counts best < counts x then x else best) xs

/-- First-maximum lane of a nonempty lane list (`""` on the empty list,
which the caller guards against). -/
def argmaxLane (counts : String → Int) : List String → String
  | [] => ""
  | x :: xs => argmaxFrom counts x xs

/-- Embedding of the state-machine part of `update_traffic_lights`
(lines 316-334).  `order` is `lane_order` and `counts` the per-lane tallies
passed by the caller. -/
def update_traffic_lights (order : List String) (counts : String → Int)
    (s : CtrlState) (now : ℚ) : CtrlState :=
  if order = [] then s
  else
    let elapsed := now - s.lastSwitchTime
    if s.light = Phase.GREEN ∧ elapsed ≥ GREEN_TIME then
      let active := order.getD s.currentLaneIndex ""
      let best := argmaxLane counts order
      if best ≠ active ∧ counts best - counts active ≥ COUNT_SWITCH_DELTA then
        { light := Phase.YELLOW, currentLaneIndex := s.currentLaneIndex,
          pendingLaneIndex := some (order.indexOf best), lastSwitchTime := now }
      else s
    else if s.light = Phase.YELLOW ∧ elapsed ≥ YELLOW_TIME then
      { light := Phase.GREEN,
        currentLaneIndex := s.pendingLaneIndex.getD s.currentLaneIndex,
        pendingLaneIndex := none, lastSwitchTime := now }
    else s

/-- Signal assignment tail of `update_traffic_lights` (lines 336-344): the
active lane and its configured partner receive the phase color, every other
lane receives RED. -/
def laneSignals (order : List String) (s : CtrlState) : String → Signal :=
  fun lane =>
    let active := order.getD s.currentLaneIndex ""
    if lane = active ∨ PAIRED_LANES.lookup active = some lane then s.light.toSignal
    else Signal.RED

/-- Per-lane state created at load time (app.py lines 123-131): every loaded
lane starts unoccupied, uncounted, and RED. -/
structure LaneState where
  occupied : Bool
  lastSeen : ℚ
  signal : Signal
  count : Int
deriving DecidableEq

def initLaneState : LaneState :=
  { occupied := false, lastSeen := 0, signal := Signal.RED, count := 0 }

/-! ### Matched-vehicle lane update (app.py lines 427-439,
intersection_final.py lines 293-311) -/

/-- Lane field of a matched vehicle after the app.py update (lines 433-436):
any lane change is committed unconditionally. -/
def appMatchedLane (prevLane currLane : String) : String :=
  if currLane ≠ prevLane then currLane else prevLane

/-- Successive values taken by the `lane` field of one app.py vehicle over a
sequence of matched detections, starting from its creation lane. -/
def appLaneTrace (laneAssigned : String) : List String → List String
  | [] => [laneAssigned]
  | c :: rest => laneAssigned :: appLaneTrace (appMatchedLane laneAssigned c) rest

/-- Python slice `l[-3:]`. -/
def lastThree {α : Type} (l : List α) : List α := l.drop (l.length - 3)

/-- Lane field and lane history of a matched vehicle after the
intersection_final.py update (lines 302-308): a lane change is committed,
and appended to the history, only when the new lane is not among the last
three entries of `lane_history`. -/
def finalMatchedLane (laneHistory : List String) (prevLane currLane : String) :
    String × List String :=
  if currLane ≠ prevLane then
    if currLane ∉ lastThree laneHistory then
      (currLane, laneHistory ++ [currLane])
    else (prevLane, laneHistory)
  else (prevLane, laneHistory)

/-! ### Lane classification (app.py `point_in_lane`, lines 166-170) -/

/-- Embedding of `point_in_lane`: scan the lane table in insertion order and
return the first lane whose polygon test is non-negative at the point.  The
geometric test `cv2.pointPolygonTest(polygon, pt, False)` is an external
collaborator and is passed in as `polyTest`. -/
def point_in_lane {α : Type} (polyTest : α → Int × Int → Int)
    (laneList : List (String × α)) (pt : Int × Int) : Option String :=
  match laneList with
  | [] => none
  | (name, data) :: rest =>
    if 0 ≤ polyTest data pt then some name else point_in_lane polyTest rest pt

/-! ### Manual override endpoint (app.py `simulation_update`, lines 569-597) -/

/-- Request payload of `POST /simulation/update`: an optional bulk map and
the optional fields of the single-target form. -/
structure UpdatePayload where
  counts : Option (List (String × List (String × Int)))
  intersection : Option String
  lane : Option String
  count : Option Int

/-- Outcome of the endpoint: success, the 400 `invalid simulation update`
rejection, or the 400 `simulation config not loaded` rejection. -/
inductive UpdResp
  | ok
  | invalidRequest
  | noConfig
deriving DecidableEq

/-- Write of a single simulated count. -/
def pointUpdate (s : SimCounts) (q : String × String) (v : Int) : SimCounts :=
  fun p => if p = q then v else s p

/-- Inner loop of the bulk branch (lines 582-585): unknown lane ids are
skipped, known ones are written clamped to non-negative. -/
def applyLaneUpdates (cfg : List InterCfg) (iid : String) (s : SimCounts) :
    List (String × Int) → SimCounts
  | [] => s
  | (lid, c) :: rest =>
    applyLaneUpdates cfg iid
      (if lid ∈ interLanes cfg iid then pointUpdate s (iid, lid) (max 0 c) else s) rest

/-- Outer loop of the bulk branch (lines 579-585): unknown intersection ids
are skipped whole. -/
def applyBulkUpdates (cfg : List InterCfg) (s : SimCounts) :
    List (String × List (String × Int)) → SimCounts
  | [] => s
  | (iid, lm) :: rest =>
    applyBulkUpdates cfg (if hasInter cfg iid then applyLaneUpdates cfg iid s lm else s) rest

/-- Embedding of the `simulation_update` endpoint.  A truthy (present and
nonempty) bulk map is applied with unknown targets skipped; otherwise the
single-target form is validated and rejected outright when the intersection
is unknown, the lane is unknown, or the count is missing.  On success the
endpoint runs `tick_simulation` before acknowledging. -/
def simulation_update (cfg : List InterCfg) (liveLanes : List String) (live : String → Nat)
    (s : SimState) (now : ℚ) (p : UpdatePayload) : UpdResp × SimState :=
  if cfg = [] then (UpdResp.noConfig, s)
  else
    match p.counts with
    | some (u :: us) =>
      let s1 : SimState := { s with counts := applyBulkUpdates cfg s.counts (u :: us) }
      (UpdResp.ok, tick_simulation cfg liveLanes live s1 now)
    | _ =>
      match p.intersection, p.lane, p.count with
      | some iid, some lid, some c =>
        if hasInter cfg iid ∧ lid ∈ interLanes cfg iid then
          let s1 : SimState := { s with counts := pointUpdate s.counts (iid, lid) (max 0 c) }
          (UpdResp.ok, tick_simulation cfg liveLanes live s1 now)
        else (UpdResp.invalidRequest, s)
      | _, _, _ => (UpdResp.invalidRequest, s)

/-- Lane table built at load time (app.py lines 123-131), one `LaneState`
per loaded lane name. -/
def initLanes (names : List String) : List (String × LaneState) :=
  names.map (fun n => (n, initLaneState))

/-! ### Claim theorems -/

/-- C5: for every integer sourceCount at least 0 the per-tick handoff amount
equals `max(SIM_MIN_HANDOFF, floor(sourceCount / 2))` capped at
`sourceCount`, is exactly 0 at 0, and takes the values 5, 1, 1, 0 at the
counts 10, 1, 3, 0. -/
theorem c5_handoff_formula (c : Int) (hc : 0 ≤ c) :
    _handoff_amount c = min (max SIM_MIN_HANDOFF (c / 2)) c ∧
    _handoff_amount 0 = 0 ∧ _handoff_amount 10 = 5 ∧
    _handoff_amount 1 = 1 ∧ _handoff_amount 3 = 1 := by
  refine ⟨?_, by decide, by decide, by decide, by decide⟩
  unfold _handoff_amount SIM_MIN_HANDOFF
  dsimp only
  split_ifs with h1 h2 <;> omega

/-- Witness for C5 at sourceCount 10. -/
theorem c5_witness :
    _handoff_amount 10 = min (max SIM_MIN_HANDOFF ((10 : Int) / 2)) 10 :=
  (c5_handoff_formula 10 (by decide)).1

/-- C7: a tick invoked before `SIM_TICK_SECONDS` elapsed since the last
firing tick is a no-op; the whole simulator state, in particular every
simulated per-intersection per-lane count, is unchanged. -/
theorem c7_tick_idempotence (cfg : List InterCfg) (liveLanes : List String)
    (live : String → Nat) (s : SimState) (now : ℚ)
    (h : now - s.lastTick < SIM_TICK_SECONDS) :
    tick_simulation cfg liveLanes live s now = s := by
  unfold tick_simulation
  split_ifs <;> rfl

/-- Witness for C7: a nonempty configuration, a tick that would otherwise
fire, invoked half a second after the previous firing tick. -/
theorem c7_witness :
    tick_simulation [⟨"intersection_1", ["lane_1"], []⟩] ["lane_1"] (fun _ => 3)
      ⟨fun _ => 2, 0⟩ (1 / 2) = ⟨fun _ => 2, 0⟩ :=
  c7_tick_idempotence _ _ _ _ _ (by norm_num [SIM_TICK_SECONDS])

/-- C10: `point_in_lane` is total and deterministic; it returns `none`
exactly when the polygon test is negative for every lane, and whenever a
lane accepts the point (test at least 0, boundary included) it returns the
first accepting lane in lane-configuration insertion order. -/
theorem c10_point_in_lane {α : Type} (polyTest : α → Int × Int → Int)
    (laneList : List (String × α)) (pt : Int × Int) :
    (point_in_lane polyTest laneList pt = none ↔
      ∀ e ∈ laneList, polyTest e.2 pt < 0) ∧
    (∀ (pre : List (String × α)) (name : String) (data : α) (post : List (String × α)),
      laneList = pre ++ (name, data) :: post →
      0 ≤ polyTest data pt →
      (∀ e ∈ pre, polyTest e.2 pt < 0) →
      point_in_lane polyTest laneList pt = some name) := by
  constructor
  · induction laneList with
    | nil => simp [point_in_lane]
    | cons hd tl ih =>
      obtain ⟨n, d⟩ := hd
      by_cases hacc : 0 ≤ polyTest d pt
      · simp only [point_in_lane, if_pos hacc]
        constructor
        · intro hcontra; exact absurd hcontra (by simp)
        · intro hall
          have hnd : polyTest d pt < 0 := hall (n, d) (by simp)
          omega
      · simp only [point_in_lane, if_neg hacc]
        rw [ih]
        constructor
        · intro htl e he
          rcases List.mem_cons.mp he with he1 | he2
          · subst he1; exact lt_of_not_le hacc
          · exact htl e he2
        · intro hall e he; exact hall e (List.mem_cons_of_mem _ he)
  · intro pre
    induction pre generalizing laneList with
    | nil =>
      intro name data post hdecomp hacc _
      subst hdecomp
      simp [point_in_lane, if_pos hacc]
    | cons hd tl ih =>
      intro name data post hdecomp hacc hneg
      subst hdecomp
      obtain ⟨n, d⟩ := hd
      have hd_neg : polyTest d pt < 0 := hneg (n, d) (by simp)
      simp only [List.cons_append, point_in_lane, if_neg (by omega : ¬ 0 ≤ polyTest d pt)]
      exact ih (tl ++ (name, data) :: post) name data post rfl hacc
        (fun e he => hneg e (List.mem_cons_of_mem _ he))

/-- Witness for C10: a two-lane table where the first lane rejects the
point and the second accepts it. -/
theorem c10_witness :
    point_in_lane (fun (a : Int) (p : Int × Int) => a + p.1)
      [("lane_1", (-10 : Int)), ("lane_2", 5)] (0, 0) = some "lane_2" :=
  (c10_point_in_lane (fun (a : Int) (p : Int × Int) => a + p.1)
      [("lane_1", (-10 : Int)), ("lane_2", 5)] (0, 0)).2
    [("lane_1", (-10 : Int))] "lane_2" 5 [] rfl (by decide) (by decide)

/-- C3 counterexample: in app.py (generate_frames, lines 433-436) a matched
vehicle that moved lane_2, lane_1, lane_2 has the final reassignment to
lane_2 committed even though lane_2 is among its last three visited lanes;
the claimed anti-bounce guard would have retained lane_1.  The guard exists
only in intersection_final.py. -/
theorem c3_counterexample :
    appLaneTrace "lane_2" ["lane_1", "lane_2"] = ["lane_2", "lane_1", "lane_2"] ∧
    "lane_2" ∈ lastThree ["lane_2", "lane_1"] ∧
    appMatchedLane "lane_1" "lane_2" = "lane_2" ∧
    "lane_2" ≠ "lane_1" := by decide

/-- C3 amended: in intersection_final.py (lines 302-308) a matched vehicle
whose new lane differs from its current lane commits the reassignment, and
appends it to its lane history, exactly when the new lane is not among the
last three entries of the lane history; otherwise the previous lane and
history are retained.  In app.py the reassignment is unconditional. -/
theorem c3_amended_anti_bounce (hist : List String) (prevLane currLane : String)
    (h : currLane ≠ prevLane) :
    (finalMatchedLane hist prevLane currLane =
      (if currLane ∈ lastThree hist then prevLane else currLane,
       if currLane ∈ lastThree hist then hist else hist ++ [currLane])) ∧
    appMatchedLane prevLane currLane = currLane := by
  constructor
  · unfold finalMatchedLane
    rw [if_pos h]
    by_cases hmem : currLane ∈ lastThree hist
    · rw [if_neg (by simp [hmem]), if_pos hmem, if_pos hmem]
    · rw [if_pos hmem, if_neg hmem, if_neg hmem]
  · unfold appMatchedLane
    rw [if_pos h]

/-- Witness for C3 amended: a bounced lane change is rejected and the
previous lane retained. -/
theorem c3_amended_witness :
    finalMatchedLane ["lane_2", "lane_1"] "lane_1" "lane_2" =
      (if "lane_2" ∈ lastThree ["lane_2", "lane_1"] then "lane_1" else "lane_2",
       if "lane_2" ∈ lastThree ["lane_2", "lane_1"] then ["lane_2", "lane_1"]
       else ["lane_2", "lane_1"] ++ ["lane_2"]) :=
  (c3_amended_anti_bounce ["lane_2", "lane_1"] "lane_1" "lane_2" (by decide)).1

/-- Every element scanned by `argmaxFrom` has a count at most that of the
result (Python `max` semantics). -/
theorem argmaxFrom_le (counts : String → Int) :
    ∀ (xs : List String) (b x : String), (x = b ∨ x ∈ xs) →
      counts x ≤ counts (argmaxFrom counts b xs) := by
  intro xs
  induction xs with
  | nil =>
    intro b x hx
    rcases hx with hx | hx
    · subst hx; exact le_refl _
    · exact absurd hx (by simp)
  | cons y ys ih =>
    intro b x hx
    show counts x ≤ counts (argmaxFrom counts (if counts b < counts y then y else b) ys)
    have hb' : counts b ≤ counts (if counts b < counts y then y else b) := by
      split_ifs with hby
      · exact le_of_lt hby
      · exact le_refl _
    have hy' : counts y ≤ counts (if counts b < counts y then y else b) := by
      split_ifs with hby
      · exact le_refl _
      · omega
    have hrec : counts (if counts b < counts y then y else b) ≤
        counts (argmaxFrom counts (if counts b < counts y then y else b) ys) :=
      ih _ _ (Or.inl rfl)
    rcases hx with hx | hx
    · subst hx; exact le_trans hb' hrec
    · rcases List.mem_cons.mp hx with hx | hx
      · subst hx; exact le_trans hy' hrec
      · exact ih _ _ (Or.inr hx)

/-- The result of `argmaxFrom` splits the scanned list so that everything
strictly before it has a strictly smaller count: Python `max` keeps the
first maximal element. -/
theorem argmaxFrom_split (counts : String → Int) :
    ∀ (xs : List String) (b : String),
      ∃ pre post, b :: xs = pre ++ argmaxFrom counts b xs :: post ∧
        ∀ y ∈ pre, counts y < counts (argmaxFrom counts b xs) := by
  intro xs
  induction xs with
  | nil =>
    intro b
    exact ⟨[], [], rfl, by simp⟩
  | cons y ys ih =>
    intro b
    by_cases hby : counts b < counts y
    · obtain ⟨pre1, post1, heq, hlt⟩ := ih y
      have hred : argmaxFrom counts b (y :: ys) = argmaxFrom counts y ys := by
        show argmaxFrom counts (if counts b < counts y then y else b) ys = _
        rw [if_pos hby]
      refine ⟨b :: pre1, post1, ?_, ?_⟩
      · rw [hred, List.cons_append, ← heq]
      · intro z hz
        rw [hred]
        rcases List.mem_cons.mp hz with hz | hz
        · subst hz
          exact lt_of_lt_of_le hby (argmaxFrom_le counts ys y y (Or.inl rfl))
        · exact hlt z hz
    · obtain ⟨pre1, post1, heq, hlt⟩ := ih b
      have hred : argmaxFrom counts b (y :: ys) = argmaxFrom counts b ys := by
        show argmaxFrom counts (if counts b < counts y then y else b) ys = _
        rw [if_neg hby]
      cases pre1 with
      | nil =>
        simp only [List.nil_append] at heq
        have hrb : argmaxFrom counts b ys = b := (List.cons.injEq _ _ _ _).mp heq.symm |>.1
        refine ⟨[], y :: ys, ?_, by simp⟩
        rw [hred, hrb, List.nil_append]
      | cons p pre2 =>
        simp only [List.cons_append] at heq
        have hpb : p = b := ((List.cons.injEq _ _ _ _).mp heq.symm).1
        have hys : ys = pre2 ++ argmaxFrom counts b ys :: post1 :=
          ((List.cons.injEq _ _ _ _).mp heq).2
        have hblt : counts b < counts (argmaxFrom counts b ys) := by
          have := hlt p (by simp)
          rwa [hpb] at this
        refine ⟨b :: y :: pre2, post1, ?_, ?_⟩
        · rw [hred]
          simp only [List.cons_append]
          rw [← hys]
        · intro z hz
          rw [hred]
          rcases List.mem_cons.mp hz with hz | hz
          · subst hz; exact hblt
          · rcases List.mem_cons.mp hz with hz | hz
            · subst hz; omega
            · exact hlt z (by simp [hz])

/-- Characterization of `update_traffic_lights` when the phase is GREEN:
either the hysteresis condition fires and the phase moves to YELLOW with
the candidate recorded as pending, or the state is left untouched. -/
theorem update_green_char (order : List String) (counts : String → Int)
    (s : CtrlState) (now : ℚ) (hne : order ≠ []) (hG : s.light = Phase.GREEN) :
    update_traffic_lights order counts s now =
      (if GREEN_TIME ≤ now - s.lastSwitchTime ∧
          argmaxLane counts order ≠ order.getD s.currentLaneIndex "" ∧
          COUNT_SWITCH_DELTA ≤ counts (argmaxLane counts order) -
            counts (order.getD s.currentLaneIndex "") then
        { light := Phase.YELLOW, currentLaneIndex := s.currentLaneIndex,
          pendingLaneIndex := some (order.indexOf (argmaxLane counts order)),
          lastSwitchTime := now }
      else s) := by
  unfold update_traffic_lights
  rw [if_neg hne]
  dsimp only
  by_cases hT : GREEN_TIME ≤ now - s.lastSwitchTime
  · rw [if_pos ⟨hG, hT⟩]
    by_cases hC : argmaxLane counts order ≠ order.getD s.currentLaneIndex "" ∧
        COUNT_SWITCH_DELTA ≤ counts (argmaxLane counts order) -
          counts (order.getD s.currentLaneIndex "")
    · rw [if_pos hC, if_pos ⟨hT, hC⟩]
    · rw [if_neg hC, if_neg (by tauto)]
  · rw [if_neg (by tauto), if_neg (by rw [hG]; simp), if_neg (by tauto)]

/-- C4: with the phase GREEN and a valid active index, the controller moves
to YELLOW (recording the candidate as pending) exactly when `GREEN_TIME`
elapsed and the first-in-order argmax lane differs from the active lane and
beats it by at least `COUNT_SWITCH_DELTA`; otherwise the state holds.  The
candidate maximizes the counts and every lane placed before it in the
configured order has a strictly smaller count (first position wins ties). -/
theorem c4_green_to_yellow (order : List String) (counts : String → Int)
    (s : CtrlState) (now : ℚ)
    (hG : s.light = Phase.GREEN) (hidx : s.currentLaneIndex < order.length) :
    ((update_traffic_lights order counts s now).light = Phase.YELLOW ↔
      (GREEN_TIME ≤ now - s.lastSwitchTime ∧
       argmaxLane counts order ≠ order.getD s.currentLaneIndex "" ∧
       COUNT_SWITCH_DELTA ≤ counts (argmaxLane counts order) -
         counts (order.getD s.currentLaneIndex ""))) ∧
    ((update_traffic_lights order counts s now).light = Phase.YELLOW →
      (update_traffic_lights order counts s now).pendingLaneIndex =
        some (order.indexOf (argmaxLane counts order))) ∧
    (¬ (GREEN_TIME ≤ now - s.lastSwitchTime ∧
        argmaxLane counts order ≠ order.getD s.currentLaneIndex "" ∧
        COUNT_SWITCH_DELTA ≤ counts (argmaxLane counts order) -
          counts (order.getD s.currentLaneIndex "")) →
      update_traffic_lights order counts s now = s) ∧
    (∀ l ∈ order, counts l ≤ counts (argmaxLane counts order)) ∧
    (∃ pre post, order = pre ++ argmaxLane counts order :: post ∧
      ∀ y ∈ pre, counts y < counts (argmaxLane counts order)) := by
  have hne : order ≠ [] := by
    intro hcontra
    rw [hcontra] at hidx
    exact absurd hidx (by simp)
  obtain ⟨o, os, rfl⟩ : ∃ o os, order = o :: os := by
    cases order with
    | nil => exact absurd rfl hne
    | cons o os => exact ⟨o, os, rfl⟩
  have hchar := update_green_char (o :: os) counts s now hne hG
  refine ⟨?_, ?_, ?_, ?_, ?_⟩
  · rw [hchar]
    split_ifs with hc
    · simp only [true_iff]
      exact hc
    · simp only [hG]
      exact iff_of_false (by simp) hc
  · rw [hchar]
    split_ifs with hc
    · intro _; rfl
    · intro hy
      rw [hG] at hy
      exact absurd hy (by simp)
  · intro hc
    rw [hchar, if_neg hc]
  · intro l hl
    show counts l ≤ counts (argmaxFrom counts o os)
    rcases List.mem_cons.mp hl with hl | hl
    · exact argmaxFrom_le counts os o l (Or.inl hl)
    · exact argmaxFrom_le counts os o l (Or.inr hl)
  · exact argmaxFrom_split counts os o

/-- Witness for C4: two lanes, active lane_1 with count 3, candidate lane_2
with count 6, evaluated exactly when GREEN_TIME has elapsed: the phase
switches to YELLOW. -/
theorem c4_witness :
    (update_traffic_lights ["lane_1", "lane_2"]
        (fun l => if l = "lane_2" then 6 else 3)
        ⟨Phase.GREEN, 0, none, 0⟩ 5).light = Phase.YELLOW :=
  ((c4_green_to_yellow ["lane_1", "lane_2"] (fun l => if l = "lane_2" then 6 else 3)
      ⟨Phase.GREEN, 0, none, 0⟩ 5 rfl (by decide)).1).mpr
    ⟨by norm_num [GREEN_TIME], by decide, by decide⟩

/-- C2 counterexample: in the initial state after lane loading (app.py
lines 123-131) every loaded lane has signal RED, so with two lanes loaded
the number of lanes holding GREEN or YELLOW is zero, not one; the claimed
invariant fails at that instant. -/
theorem c2_counterexample :
    (initLanes ["lane_1", "lane_2"]).length = 2 ∧
    (initLanes ["lane_1", "lane_2"]).countP
      (fun e => decide (e.2.signal ≠ Signal.RED)) = 0 := by decide

/-- The active lane index stays within the lane order across one controller
update, provided the pending index is also in range. -/
theorem update_idx_lt (order : List String) (counts : String → Int)
    (s : CtrlState) (now : ℚ)
    (hcur : s.currentLaneIndex < order.length)
    (hpend : ∀ j, s.pendingLaneIndex = some j → j < order.length) :
    (update_traffic_lights order counts s now).currentLaneIndex < order.length := by
  unfold update_traffic_lights
  dsimp only
  split_ifs <;> try exact hcur
  cases hp : s.pendingLaneIndex with
  | none => exact hcur
  | some j => exact hpend j hp

/-- C2 amended: the initial state after lane loading has every lane RED
(see the counterexample); after every `update_traffic_lights` call with a
non-empty lane order and in-range indices, the lanes holding GREEN or
YELLOW are exactly the active lane together with its statically paired
partner, and every other lane is RED. -/
theorem c2_amended_signal_invariant (order : List String) (counts : String → Int)
    (s : CtrlState) (now : ℚ)
    (hcur : s.currentLaneIndex < order.length)
    (hpend : ∀ j, s.pendingLaneIndex = some j → j < order.length) :
    ((update_traffic_lights order counts s now).currentLaneIndex < order.length) ∧
    (order.getD (update_traffic_lights order counts s now).currentLaneIndex "" ∈ order) ∧
    (laneSignals order (update_traffic_lights order counts s now)
      (order.getD (update_traffic_lights order counts s now).currentLaneIndex "")
      ≠ Signal.RED) ∧
    (∀ l, laneSignals order (update_traffic_lights order counts s now) l ≠ Signal.RED ↔
      (l = order.getD (update_traffic_lights order counts s now).currentLaneIndex "" ∨
       PAIRED_LANES.lookup
         (order.getD (update_traffic_lights order counts s now).currentLaneIndex "")
         = some l)) := by
  have hidx2 := update_idx_lt order counts s now hcur hpend
  have hts : (update_traffic_lights order counts s now).light.toSignal ≠ Signal.RED := by
    cases (update_traffic_lights order counts s now).light <;> simp [Phase.toSignal]
  have hchar : ∀ l, laneSignals order (update_traffic_lights order counts s now) l
      ≠ Signal.RED ↔
      (l = order.getD (update_traffic_lights order counts s now).currentLaneIndex "" ∨
       PAIRED_LANES.lookup
         (order.getD (update_traffic_lights order counts s now).currentLaneIndex "")
         = some l) := by
    intro l
    unfold laneSignals
    dsimp only
    split_ifs with hcond
    · exact iff_of_true hts hcond
    · exact iff_of_false (by simp) hcond
  refine ⟨hidx2, ?_, (hchar _).mpr (Or.inl rfl), hchar⟩
  rw [List.getD_eq_getElem order "" hidx2]
  exact List.getElem_mem _

/-- Witness for C2 amended: two lanes, controller holding GREEN on lane_1;
after an update the active lane is not RED. -/
theorem c2_amended_witness :
    laneSignals ["lane_1", "lane_2"]
      (update_traffic_lights ["lane_1", "lane_2"] (fun _ => 0)
        ⟨Phase.GREEN, 0, none, 0⟩ 0)
      (["lane_1", "lane_2"].getD
        (update_traffic_lights ["lane_1", "lane_2"] (fun _ => 0)
          ⟨Phase.GREEN, 0, none, 0⟩ 0).currentLaneIndex "")
      ≠ Signal.RED :=
  (c2_amended_signal_invariant ["lane_1", "lane_2"] (fun _ => 0)
    ⟨Phase.GREEN, 0, none, 0⟩ 0 (by decide)
    (by intro j hj; simp at hj)).2.2.1

/-- After step 2 of a firing tick, every read of a non-mirror source count
through `dict.get` yields zero. -/
theorem getCount_postReset_eq_zero (cfg : List InterCfg) (ll : List String)
    (live : String → Nat) (s : SimCounts) (i l : String)
    (hi : i ≠ SIM_MIRROR_INTERSECTION) :
    getCount cfg (postReset cfg ll live s) i l = 0 := by
  unfold getCount postReset resetStep
  by_cases hmem : l ∈ interLanes cfg i
  · rw [if_pos hmem]
    show (if ((i, l).1 ≠ SIM_MIRROR_INTERSECTION ∧ (i, l).2 ∈ interLanes cfg (i, l).1)
        then 0 else mirrorStep cfg ll live s (i, l)) = 0
    rw [if_pos ⟨hi, hmem⟩]
  · rw [if_neg hmem]

/-- Every transfer generated from one configuration entry carries that
intersection id of that entry as source, a positive amount, and an amount equal
to the handoff of the read source count. -/
theorem genFromInter_mem (read : String → String → Int) (ic : InterCfg) (t : Transfer)
    (h : t ∈ genFromInter read ic) :
    t.srcI = ic.id ∧ 0 < t.amount ∧ t.amount = _handoff_amount (read ic.id t.srcL) := by
  unfold genFromInter at h
  rw [List.mem_filterMap] at h
  obtain ⟨entry, hmem, hf⟩ := h
  dsimp only at hf
  split_ifs at hf with h1 h2 <;> try exact Option.noConfusion hf
  obtain rfl := Option.some.inj hf
  exact ⟨rfl, lt_of_not_le h2, rfl⟩

/-- A configuration entry whose source counts all read as zero generates no
transfers. -/
theorem genFromInter_eq_nil (read : String → String → Int) (ic : InterCfg)
    (h : ∀ l, read ic.id l = 0) : genFromInter read ic = [] := by
  unfold genFromInter
  rw [List.filterMap_eq_nil_iff]
  intro entry hmem
  dsimp only
  split_ifs with h1 h2
  · rfl
  · exact absurd (le_of_eq (by rw [h entry.1]; decide)) h2
  · rfl

/-- The source intersection id of every generated transfer is a configured id. -/
theorem genTransfers_srcI_mem (read : String → String → Int) (cfg : List InterCfg)
    (t : Transfer) (h : t ∈ genTransfers read cfg) : t.srcI ∈ cfg.map InterCfg.id := by
  unfold genTransfers at h
  rw [List.mem_flatMap] at h
  obtain ⟨ic, hic, ht⟩ := h
  rw [(genFromInter_mem read ic t ht).1]
  exact List.mem_map_of_mem _ hic

/-- Fixture for the C1 counterexample: a non-mirror intersection with a
prior-tick count of 7 on lane_9 routed to a third intersection. -/
def cfgC1 : List InterCfg :=
  [⟨"intersection_1", ["lane_1"], []⟩,
   ⟨"intersection_2", ["lane_9"], [("lane_9", some "intersection_3.lane_5")]⟩,
   ⟨"intersection_3", ["lane_5"], []⟩]

/-- Prior-tick counts for the C1 counterexample. -/
def sC1 : SimCounts := fun p => if p = ("intersection_2", "lane_9") then 7 else 0

/-- C1 counterexample: intersection_2 holds the prior-tick count 7 on
lane_9, whose route targets intersection_3.lane_5.  The claim says the
firing tick computes this transfer from the count established in the prior
tick, i.e. a handoff of 3 arriving at the destination; the code resets
intersection_2 to zero before computing transfers, so the tick generates no
transfer at all and the destination stays 0. -/
theorem c1_counterexample :
    sC1 ("intersection_2", "lane_9") = 7 ∧
    _handoff_amount 7 = 3 ∧
    genTransfers (getCount cfgC1 (postReset cfgC1 [] (fun _ => 0) sC1)) cfgC1 = [] ∧
    tickFire cfgC1 [] (fun _ => 0) sC1 ("intersection_3", "lane_5") = 0 ∧
    tickFire cfgC1 [] (fun _ => 0) sC1 ("intersection_2", "lane_9") = 0 := by decide

/-- C1 amended: on a firing tick the transfer amounts are computed from the
post-reset counts, not from pre-reset ones: every non-mirror source count
reads as zero at that point, so every transfer the tick generates has the
mirror intersection as its source and an amount equal to the handoff of the
mirrored (hence pre-reset only in the case of the mirror) source count. -/
theorem c1_amended_transfers_only_from_mirror (cfg : List InterCfg) (ll : List String)
    (live : String → Nat) (s : SimCounts) :
    (∀ i l, i ≠ SIM_MIRROR_INTERSECTION →
      getCount cfg (postReset cfg ll live s) i l = 0) ∧
    (∀ t ∈ genTransfers (getCount cfg (postReset cfg ll live s)) cfg,
      t.srcI = SIM_MIRROR_INTERSECTION ∧
      t.amount = _handoff_amount
        (getCount cfg (postReset cfg ll live s) SIM_MIRROR_INTERSECTION t.srcL)) := by
  refine ⟨fun i l hi => getCount_postReset_eq_zero cfg ll live s i l hi, ?_⟩
  intro t ht
  unfold genTransfers at ht
  rw [List.mem_flatMap] at ht
  obtain ⟨ic, hic, hmem⟩ := ht
  obtain ⟨hsrc, hpos, hamt⟩ := genFromInter_mem _ ic t hmem
  by_cases hmir : ic.id = SIM_MIRROR_INTERSECTION
  · constructor
    · rw [hsrc, hmir]
    · rw [hamt, hmir]
  · exfalso
    have hnil : genFromInter (getCount cfg (postReset cfg ll live s)) ic = [] :=
      genFromInter_eq_nil _ ic
        (fun l => getCount_postReset_eq_zero cfg ll live s ic.id l hmir)
    rw [hnil] at hmem
    exact absurd hmem (by simp)

/-- Fixture for the C1 amended witness: the mirror routes lane_1 to a
second intersection and the live count is 4. -/
def cfgC1W : List InterCfg :=
  [⟨"intersection_1", ["lane_1"], [("lane_1", some "intersection_2.lane_2")]⟩,
   ⟨"intersection_2", ["lane_2"], []⟩]

/-- Witness for C1 amended: the single transfer generated by a firing tick
over `cfgC1W` has the mirror as source and the handoff of the mirrored
count as amount. -/
theorem c1_amended_witness :
    (Transfer.mk "intersection_1" "lane_1" "intersection_2" "lane_2" 2).srcI =
      SIM_MIRROR_INTERSECTION ∧
    (Transfer.mk "intersection_1" "lane_1" "intersection_2" "lane_2" 2).amount =
      _handoff_amount
        (getCount cfgC1W (postReset cfgC1W ["lane_1"] (fun _ => 4) (fun _ => 0))
          SIM_MIRROR_INTERSECTION
          (Transfer.mk "intersection_1" "lane_1" "intersection_2" "lane_2" 2).srcL) :=
  (c1_amended_transfers_only_from_mirror cfgC1W ["lane_1"] (fun _ => 4) (fun _ => 0)).2
    ⟨"intersection_1", "lane_1", "intersection_2", "lane_2", 2⟩ (by decide)

/-- A configured lane membership witnesses a configured (intersection,
lane) pair. -/
theorem mem_domPairs_of_interLanes (cfg : List InterCfg) (i l : String)
    (h : l ∈ interLanes cfg i) : (i, l) ∈ (domPairs cfg).toFinset := by
  rw [List.mem_toFinset]
  unfold interLanes at h
  cases hfind : cfg.find? (fun ic => ic.id == i) with
  | none => rw [hfind] at h; exact absurd h (by simp)
  | some ic =>
    rw [hfind] at h
    have hic : ic ∈ cfg := List.mem_of_find?_eq_some hfind
    have hbeq := List.find?_some hfind
    have hid : ic.id = i := eq_of_beq hbeq
    unfold domPairs
    rw [List.mem_flatMap]
    refine ⟨ic, hic, ?_⟩
    rw [← hid]
    exact List.mem_map_of_mem _ h

/-- Applying one transfer preserves the grand total of the simulated
counts: the amount subtracted at the source equals the amount added at the
destination (and a skipped transfer changes nothing). -/
theorem applyTransfer_total (cfg : List InterCfg) (s : SimCounts) (t : Transfer) :
    totalCount cfg (applyTransfer cfg s t) = totalCount cfg s := by
  unfold applyTransfer
  split_ifs with hv
  · obtain ⟨hv1, hv2, hv3, hv4⟩ := hv
    unfold totalCount
    rw [Finset.sum_add_distrib, Finset.sum_sub_distrib,
      Finset.sum_ite_eq' (domPairs cfg).toFinset (t.srcI, t.srcL) (fun _ => t.amount),
      Finset.sum_ite_eq' (domPairs cfg).toFinset (t.dstI, t.dstL) (fun _ => t.amount),
      if_pos (mem_domPairs_of_interLanes cfg t.srcI t.srcL hv3),
      if_pos (mem_domPairs_of_interLanes cfg t.dstI t.dstL hv4)]
    omega
  · rfl

/-- Applying any batch of transfers preserves the grand total. -/
theorem applyTransfers_total (cfg : List InterCfg) :
    ∀ (ts : List Transfer) (s : SimCounts),
      totalCount cfg (applyTransfers cfg s ts) = totalCount cfg s := by
  intro ts
  induction ts with
  | nil => intro s; rfl
  | cons t rest ih =>
    intro s
    show totalCount cfg (applyTransfers cfg (applyTransfer cfg s t) rest) = totalCount cfg s
    rw [ih (applyTransfer cfg s t), applyTransfer_total]

/-- C6: on a firing tick all transfers are computed first from the
post-reset snapshot (by construction of `tickFire`) and applied afterward
as one batch; the batch conserves the grand total of the simulated counts,
so the total subtracted from source lanes equals the total added to
destination lanes, multiple inbound edges included. -/
theorem c6_conservation (cfg : List InterCfg) (liveLanes : List String)
    (live : String → Nat) (s : SimCounts) :
    totalCount cfg (tickFire cfg liveLanes live s) =
      totalCount cfg (postReset cfg liveLanes live s) := by
  unfold tickFire
  exact applyTransfers_total cfg _ _

/-- Steps 1 and 2 of a firing tick preserve non-negativity: the mirror is
overwritten with vehicle tallies and the rest is zeroed. -/
theorem postReset_nonneg (cfg : List InterCfg) (ll : List String) (live : String → Nat)
    (s : SimCounts) (hs : ∀ p, 0 ≤ s p) : ∀ p, 0 ≤ postReset cfg ll live s p := by
  intro p
  unfold postReset resetStep mirrorStep
  split_ifs
  · exact le_refl 0
  · exact Int.natCast_nonneg _
  · exact hs p

/-- A positive handoff never exceeds its source count. -/
theorem handoff_le_count (c : Int) (h : 0 < _handoff_amount c) : _handoff_amount c ≤ c := by
  unfold _handoff_amount at h ⊢
  dsimp only at h ⊢
  split_ifs at h ⊢ <;> omega

/-- Transfers generated from one intersection entry with duplicate-free
outgoing keys have pairwise distinct source lanes. -/
theorem genFromInter_pairwise (read : String → String → Int) (ic : InterCfg)
    (h : List.Pairwise (fun a b : String × Option String => a.1 ≠ b.1) ic.outgoing) :
    List.Pairwise (fun a b : Transfer => a.srcL ≠ b.srcL) (genFromInter read ic) := by
  unfold genFromInter
  refine List.Pairwise.filterMap _ ?_ h
  intro e e2 hne b hb b2 hb2
  rw [Option.mem_def] at hb hb2
  dsimp only at hb hb2
  split_ifs at hb with h1 h2 <;> try exact Option.noConfusion hb
  split_ifs at hb2 with h3 h4 <;> try exact Option.noConfusion hb2
  obtain rfl := Option.some.inj hb
  obtain rfl := Option.some.inj hb2
  exact hne

/-- With duplicate-free intersection ids and outgoing keys, the transfer
batch of a tick has pairwise distinct (source intersection, source lane)
pairs: each source lane is debited at most once per tick. -/
theorem genTransfers_pairwise (read : String → String → Int) (cfg : List InterCfg)
    (hids : (cfg.map InterCfg.id).Nodup)
    (hout : ∀ ic ∈ cfg, (ic.outgoing.map Prod.fst).Nodup) :
    List.Pairwise (fun a b : Transfer => (a.srcI, a.srcL) ≠ (b.srcI, b.srcL))
      (genTransfers read cfg) := by
  induction cfg with
  | nil => exact List.Pairwise.nil
  | cons ic rest ih =>
    show List.Pairwise _ ((ic :: rest).flatMap (genFromInter read))
    rw [List.flatMap_cons]
    simp only [List.map_cons, List.nodup_cons] at hids
    refine List.pairwise_append.mpr ⟨?_, ?_, ?_⟩
    · refine (genFromInter_pairwise read ic
        (List.pairwise_map.mp (hout ic (List.mem_cons_self ic rest)))).imp ?_
      intro a b hne hcontra
      exact hne (congrArg Prod.snd hcontra)
    · exact ih hids.2 (fun ic2 h2 => hout ic2 (List.mem_cons_of_mem ic h2))
    · intro a ha b hb hcontra
      have ha1 : a.srcI = ic.id := (genFromInter_mem read ic a ha).1
      have hb1 : b.srcI ∈ rest.map InterCfg.id := genTransfers_srcI_mem read rest b hb
      have heq : a.srcI = b.srcI := congrArg Prod.fst hcontra
      rw [← heq, ha1] at hb1
      exact hids.1 hb1

/-- Every generated transfer has a positive amount bounded by the snapshot
count of its source lane. -/
theorem genTransfers_amount_bound (cfg : List InterCfg) (s2 : SimCounts) :
    ∀ t ∈ genTransfers (getCount cfg s2) cfg,
      0 < t.amount ∧ t.amount ≤ s2 (t.srcI, t.srcL) := by
  intro t ht
  unfold genTransfers at ht
  rw [List.mem_flatMap] at ht
  obtain ⟨ic, hic, hmem⟩ := ht
  obtain ⟨hsrc, hpos, hamt⟩ := genFromInter_mem _ ic t hmem
  refine ⟨hpos, ?_⟩
  have hpos2 : 0 < _handoff_amount (getCount cfg s2 ic.id t.srcL) := hamt ▸ hpos
  by_cases hdom : t.srcL ∈ interLanes cfg ic.id
  · have hread : getCount cfg s2 ic.id t.srcL = s2 (ic.id, t.srcL) := by
      unfold getCount
      rw [if_pos hdom]
    have hpos3 : 0 < _handoff_amount (s2 (ic.id, t.srcL)) := by
      rw [← hread]
      exact hpos2
    rw [hsrc, hamt, hread]
    exact handoff_le_count _ hpos3
  · exfalso
    have hzero : getCount cfg s2 ic.id t.srcL = 0 := by
      unfold getCount
      rw [if_neg hdom]
    rw [hzero] at hpos2
    exact absurd hpos2 (by decide)

/-- Applying a batch of transfers with positive amounts bounded by the
snapshot source counts and pairwise distinct sources keeps every count
non-negative. -/
theorem applyTransfers_nonneg (cfg : List InterCfg) :
    ∀ (ts : List Transfer) (s : SimCounts),
      (∀ p, 0 ≤ s p) →
      (∀ t ∈ ts, 0 < t.amount ∧ t.amount ≤ s (t.srcI, t.srcL)) →
      List.Pairwise (fun a b : Transfer => (a.srcI, a.srcL) ≠ (b.srcI, b.srcL)) ts →
      ∀ p, 0 ≤ applyTransfers cfg s ts p := by
  intro ts
  induction ts with
  | nil => intro s hs _ _ p; exact hs p
  | cons t rest ih =>
    intro s hs hb hp p
    obtain ⟨hpos, hle⟩ := hb t (List.mem_cons_self t rest)
    have h1 : ∀ q, 0 ≤ applyTransfer cfg s t q := by
      intro q
      unfold applyTransfer
      split_ifs with hv
      · dsimp only
        split_ifs with hq1 hq2
        · have := hs q
          omega
        · subst hq1
          omega
        · have := hs q
          omega
        · have := hs q
          omega
      · exact hs q
    have h2 : ∀ t2 ∈ rest, t2.amount ≤ applyTransfer cfg s t (t2.srcI, t2.srcL) := by
      intro t2 h2m
      have hne : (t.srcI, t.srcL) ≠ (t2.srcI, t2.srcL) :=
        (List.pairwise_cons.mp hp).1 t2 h2m
      have hb2 : t2.amount ≤ s (t2.srcI, t2.srcL) :=
        (hb t2 (List.mem_cons_of_mem t h2m)).2
      unfold applyTransfer
      split_ifs with hv
      · dsimp only
        split_ifs with hq1 hq2
        · exact absurd hq1.symm hne
        · exact absurd hq1.symm hne
        · omega
        · omega
      · exact hb2
    show 0 ≤ applyTransfers cfg (applyTransfer cfg s t) rest p
    exact ih (applyTransfer cfg s t) h1
      (fun t2 h2m => ⟨(hb t2 (List.mem_cons_of_mem t h2m)).1, h2 t2 h2m⟩)
      (List.pairwise_cons.mp hp).2 p

/-- A firing tick keeps every simulated count non-negative. -/
theorem tickFire_nonneg (cfg : List InterCfg) (ll : List String) (live : String → Nat)
    (s : SimCounts)
    (hids : (cfg.map InterCfg.id).Nodup)
    (hout : ∀ ic ∈ cfg, (ic.outgoing.map Prod.fst).Nodup)
    (hs : ∀ p, 0 ≤ s p) : ∀ p, 0 ≤ tickFire cfg ll live s p := by
  intro p
  show 0 ≤ applyTransfers cfg (postReset cfg ll live s)
    (genTransfers (getCount cfg (postReset cfg ll live s)) cfg) p
  exact applyTransfers_nonneg cfg _ _ (postReset_nonneg cfg ll live s hs)
    (genTransfers_amount_bound cfg _) (genTransfers_pairwise _ cfg hids hout) p

/-- The tick endpoint keeps every simulated count non-negative. -/
theorem tick_simulation_nonneg (cfg : List InterCfg) (ll : List String)
    (live : String → Nat) (s : SimState) (now : ℚ)
    (hids : (cfg.map InterCfg.id).Nodup)
    (hout : ∀ ic ∈ cfg, (ic.outgoing.map Prod.fst).Nodup)
    (hs : ∀ p, 0 ≤ s.counts p) :
    ∀ p, 0 ≤ (tick_simulation cfg ll live s now).counts p := by
  intro p
  unfold tick_simulation
  split_ifs
  · exact hs p
  · exact hs p
  · exact tickFire_nonneg cfg ll live s.counts hids hout hs p

/-- The inner bulk-override loop keeps every count non-negative: each write
is clamped with `max 0`. -/
theorem applyLaneUpdates_nonneg (cfg : List InterCfg) (iid : String) :
    ∀ (lm : List (String × Int)) (s : SimCounts), (∀ p, 0 ≤ s p) →
      ∀ p, 0 ≤ applyLaneUpdates cfg iid s lm p := by
  intro lm
  induction lm with
  | nil => intro s hs p; exact hs p
  | cons e rest ih =>
    intro s hs p
    obtain ⟨lid, c⟩ := e
    show 0 ≤ applyLaneUpdates cfg iid
      (if lid ∈ interLanes cfg iid then pointUpdate s (iid, lid) (max 0 c) else s) rest p
    refine ih _ ?_ p
    intro p2
    split_ifs with hdom
    · unfold pointUpdate
      split_ifs with hp2
      · exact le_max_left 0 c
      · exact hs p2
    · exact hs p2

/-- The outer bulk-override loop keeps every count non-negative. -/
theorem applyBulkUpdates_nonneg (cfg : List InterCfg) :
    ∀ (updates : List (String × List (String × Int))) (s : SimCounts),
      (∀ p, 0 ≤ s p) → ∀ p, 0 ≤ applyBulkUpdates cfg s updates p := by
  intro updates
  induction updates with
  | nil => intro s hs p; exact hs p
  | cons e rest ih =>
    intro s hs p
    obtain ⟨iid, lm⟩ := e
    show 0 ≤ applyBulkUpdates cfg
      (if hasInter cfg iid then applyLaneUpdates cfg iid s lm else s) rest p
    refine ih _ ?_ p
    intro p2
    split_ifs with hhas
    · exact applyLaneUpdates_nonneg cfg iid lm s hs p2
    · exact hs p2

/-- The override endpoint keeps every simulated count non-negative. -/
theorem simulation_update_nonneg (cfg : List InterCfg) (ll : List String)
    (live : String → Nat) (s : SimState) (now : ℚ) (p : UpdatePayload)
    (hids : (cfg.map InterCfg.id).Nodup)
    (hout : ∀ ic ∈ cfg, (ic.outgoing.map Prod.fst).Nodup)
    (hs : ∀ q, 0 ≤ s.counts q) :
    ∀ q, 0 ≤ (simulation_update cfg ll live s now p).2.counts q := by
  intro q
  unfold simulation_update
  split_ifs with hcfg
  · exact hs q
  · split
    · refine tick_simulation_nonneg cfg ll live _ now hids hout ?_ q
      intro q2
      exact applyBulkUpdates_nonneg cfg _ s.counts hs q2
    · split
      · split_ifs with hvalid
        · refine tick_simulation_nonneg cfg ll live _ now hids hout ?_ q
          intro q2
          unfold pointUpdate
          dsimp only
          split_ifs with hq2
          · exact le_max_left _ _
          · exact hs q2
        · exact hs q
      · exact hs q

/-- C8: every simulated count stays a non-negative integer across every
operation: the tick endpoint and the manual-override endpoint both preserve
non-negativity (overrides write `max 0 count`), and every transfer a firing
tick applies has a positive amount never exceeding the count of its source lane
in the post-reset snapshot from which the batch was computed. -/
theorem c8_nonneg_invariant (cfg : List InterCfg) (ll : List String)
    (live : String → Nat) (s : SimState) (now : ℚ) (p : UpdatePayload)
    (hids : (cfg.map InterCfg.id).Nodup)
    (hout : ∀ ic ∈ cfg, (ic.outgoing.map Prod.fst).Nodup)
    (hs : ∀ q, 0 ≤ s.counts q) :
    (∀ q, 0 ≤ (tick_simulation cfg ll live s now).counts q) ∧
    (∀ q, 0 ≤ (simulation_update cfg ll live s now p).2.counts q) ∧
    (∀ t ∈ genTransfers (getCount cfg (postReset cfg ll live s.counts)) cfg,
      0 < t.amount ∧ t.amount ≤ postReset cfg ll live s.counts (t.srcI, t.srcL)) :=
  ⟨tick_simulation_nonneg cfg ll live s now hids hout hs,
   simulation_update_nonneg cfg ll live s now p hids hout hs,
   genTransfers_amount_bound cfg (postReset cfg ll live s.counts)⟩

/-- Witness for C8: over the two-intersection fixture, a tick fired from
the zero state with live count 4 leaves the mirror lane non-negative. -/
theorem c8_witness :
    0 ≤ (tick_simulation cfgC1W ["lane_1"] (fun _ => 4) ⟨fun _ => 0, 0⟩ 5).counts
      ("intersection_1", "lane_1") :=
  (c8_nonneg_invariant cfgC1W ["lane_1"] (fun _ => 4) ⟨fun _ => 0, 0⟩ 5
    ⟨none, none, none, none⟩ (by decide) (by decide)
    (fun q => le_refl 0)).1 ("intersection_1", "lane_1")

/-- C9: a malformed single-target override (unknown intersection, unknown
lane, or missing count, including missing fields) is rejected with the
distinguishable invalid-request outcome and the state untouched, a truthy
bulk update always succeeds, unknown intersections or lanes inside a bulk
update are silently skipped, and a known (intersection, lane) bulk entry is
applied clamped to non-negative. -/
theorem c9_override_validation (cfg : List InterCfg) (ll : List String)
    (live : String → Nat) (s : SimState) (now : ℚ) :
    (∀ p : UpdatePayload, cfg ≠ [] →
      (p.counts = none ∨ p.counts = some []) →
      (∀ iid lid c, p.intersection = some iid → p.lane = some lid → p.count = some c →
        ¬(hasInter cfg iid = true ∧ lid ∈ interLanes cfg iid)) →
      simulation_update cfg ll live s now p = (UpdResp.invalidRequest, s)) ∧
    (∀ (p : UpdatePayload) (u : String × List (String × Int))
        (us : List (String × List (String × Int))), cfg ≠ [] →
      p.counts = some (u :: us) →
      (simulation_update cfg ll live s now p).1 = UpdResp.ok) ∧
    (∀ (iid : String) (lm : List (String × Int))
        (rest : List (String × List (String × Int))) (sc : SimCounts),
      hasInter cfg iid = false →
      applyBulkUpdates cfg sc ((iid, lm) :: rest) = applyBulkUpdates cfg sc rest) ∧
    (∀ (iid lid : String) (c : Int) (rest : List (String × Int)) (sc : SimCounts),
      lid ∉ interLanes cfg iid →
      applyLaneUpdates cfg iid sc ((lid, c) :: rest) = applyLaneUpdates cfg iid sc rest) ∧
    (∀ (iid lid : String) (c : Int) (sc : SimCounts),
      hasInter cfg iid = true → lid ∈ interLanes cfg iid →
      applyBulkUpdates cfg sc [(iid, [(lid, c)])] = pointUpdate sc (iid, lid) (max 0 c)) := by
  refine ⟨?_, ?_, ?_, ?_, ?_⟩
  · intro p hcfg hbulk hbad
    unfold simulation_update
    rw [if_neg hcfg]
    split
    · rename_i u us heq
      rcases hbulk with h | h <;> rw [h] at heq <;> simp at heq
    · split
      · rename_i iid lid c hpi hpl hpc
        rw [if_neg (hbad iid lid c hpi hpl hpc)]
      all_goals rfl
  · intro p u us hcfg hpc
    unfold simulation_update
    rw [if_neg hcfg, hpc]
  · intro iid lm rest sc h
    show applyBulkUpdates cfg
      (if hasInter cfg iid = true then applyLaneUpdates cfg iid sc lm else sc) rest =
      applyBulkUpdates cfg sc rest
    rw [h, if_neg (by decide)]
  · intro iid lid c rest sc h
    show applyLaneUpdates cfg iid
      (if lid ∈ interLanes cfg iid then pointUpdate sc (iid, lid) (max 0 c) else sc) rest =
      applyLaneUpdates cfg iid sc rest
    rw [if_neg h]
  · intro iid lid c sc h1 h2
    show (if hasInter cfg iid = true then
      (if lid ∈ interLanes cfg iid then pointUpdate sc (iid, lid) (max 0 c) else sc)
      else sc) = pointUpdate sc (iid, lid) (max 0 c)
    rw [if_pos h1, if_pos h2]

/-- Witness for C9: over the two-intersection fixture, a single-target
override naming the unknown intersection nope is rejected with the state
untouched, and a bulk entry writing -5 to a known lane is applied as 0. -/
theorem c9_witness :
    simulation_update cfgC1W [] (fun _ => 0) ⟨fun _ => 0, 0⟩ 0
      ⟨none, some "nope", some "lane_1", some 3⟩ =
      (UpdResp.invalidRequest, ⟨fun _ => 0, 0⟩) ∧
    applyBulkUpdates cfgC1W (fun _ => 0) [("intersection_2", [("lane_2", -5)])] =
      pointUpdate (fun _ => 0) ("intersection_2", "lane_2") (max 0 (-5)) :=
  ⟨(c9_override_validation cfgC1W [] (fun _ => 0) ⟨fun _ => 0, 0⟩ 0).1
      ⟨none, some "nope", some "lane_1", some 3⟩ (by decide) (Or.inl rfl)
      (by
        intro iid lid c h1 h2 h3
        obtain rfl : iid = "nope" := (Option.some.inj h1).symm
        intro hcontra
        exact absurd hcontra.1 (by decide)),
   (c9_override_validation cfgC1W [] (fun _ => 0) ⟨fun _ => 0, 0⟩ 0).2.2.2.2
      "intersection_2" "lane_2" (-5) (fun _ => 0) (by decide) (by decide)⟩
